import Mathlib

/-!
Verification of the tile acquisition engine of `download_tiles/cli.py`
(the `download-tiles-referer` repository) against its natural-language
specification.

The shallow embedding below has two parts:

* a computable, discrete model of the control flow of `download_tile`,
  of the retry-wrapped metadata writes in `cli`, of the `INSERT OR IGNORE`
  tile-table writes, of the per-zoom job enumeration with the `--continue`
  filter, and of the header selection; and
* a real-number model of `deg2num` (the slippy-map projection) and of the
  per-zoom tile rectangle computed from a bounding box.  The source computes
  in IEEE doubles; exact real arithmetic is the standard idealisation, and
  every fact proved or refuted here holds with margins far wider than
  double-precision rounding.
-/

/-! ## Discrete model: storage writes and the retry loop -/

/-- Outcome of one attempt of a SQLite statement, as the source
distinguishes them: success, an `sqlite3.OperationalError` whose message
contains "database is locked", or any other exception class. -/
inductive SqlOutcome where
  | success
  | locked
  | otherError
deriving DecidableEq

/-- Trace of one (possibly retry-wrapped) storage write: the exception that
escaped (if any), how many attempts were made, the sequence of back-off
sleeps performed (in time units, in order), and the value of the
`retry_delay` variable after the write finished. -/
structure WriteTrace where
  raised : Option SqlOutcome
  attempts : ℕ
  sleeps : List ℕ
  delayAfter : ℕ
deriving DecidableEq

/-- The `for attempt in range(max_retries)` loop wrapped around the
application-id and metadata writes in `cli` (with `max_retries = 5`):
attempt the statement; on success, `break`; on a "database is locked"
`OperationalError` with `attempt < max_retries - 1`, sleep `retry_delay`,
double `retry_delay` and continue; otherwise re-raise.  `fuel` is the number
of loop iterations remaining (`5 - attempt`), so the fuel-exhausted branch is
never reached from `retriedWrite`: the last iteration always breaks or
raises. -/
def retryGo (f : ℕ → SqlOutcome) : ℕ → ℕ → ℕ → List ℕ → WriteTrace
  | 0, _, delay, slept => ⟨some .locked, 5, slept, delay⟩
  | fuel + 1, attempt, delay, slept =>
    match f attempt with
    | .success => ⟨none, attempt + 1, slept, delay⟩
    | .otherError => ⟨some .otherError, attempt + 1, slept, delay⟩
    | .locked =>
      if attempt < 4 then retryGo f fuel (attempt + 1) (delay * 2) (slept ++ [delay])
      else ⟨some .locked, attempt + 1, slept, delay⟩

/-- One retry-wrapped write starting from delay `delay0`; `f attempt` is the
outcome the database gives to the attempt with that index. -/
def retriedWrite (f : ℕ → SqlOutcome) (delay0 : ℕ) : WriteTrace :=
  retryGo f 5 0 delay0 []

/-- Lines 254-317 of `cli`: the application-id stamp followed by the
metadata stamp.  `retry_delay` is initialised to 1 once, before the first
loop, and is not reset between the two loops; an exception escaping the
first loop aborts `cli` before the second loop runs (the metadata loop
itself always runs otherwise, because `bbox` is a non-empty tuple and hence
truthy). -/
def stampSequence (f g : ℕ → SqlOutcome) : WriteTrace × Option WriteTrace :=
  let t1 := retriedWrite f 1
  match t1.raised with
  | some _ => (t1, none)
  | none => (t1, some (retriedWrite g t1.delayAfter))

/-- The per-tile `INSERT OR IGNORE` in `download_tile` (lines 345-351):
a single attempt with no surrounding retry loop — the enclosing `try` only
catches `requests.exceptions.RequestException`, so any database exception
propagates at once. -/
def tileInsertRun (f : ℕ → SqlOutcome) : WriteTrace :=
  match f 0 with
  | .success => ⟨none, 1, [], 1⟩
  | .locked => ⟨some .locked, 1, [], 1⟩
  | .otherError => ⟨some .otherError, 1, [], 1⟩

/-! ## Discrete model: the `tiles` table -/

/-- Raw bytes of a tile image, as stored in the `tile_data` blob column. -/
abbrev TileBytes := List ℕ

/-- Primary key of the `tiles` table: `(zoom_level, tile_column, tile_row)`. -/
abbrev TileKey := ℕ × ℤ × ℤ

/-- The `tiles` table, as the multiset of its rows in insertion order. -/
abbrev TilesTable := List (TileKey × TileBytes)

/-- Whether the table already holds a row with primary key `k`. -/
def hasKey (t : TilesTable) (k : TileKey) : Bool :=
  t.any fun r => decide (r.1 = k)

/-- `INSERT OR IGNORE INTO tiles ... VALUES (zoom, x, y, data)`: SQLite
ignores the insert when a row with the same primary key exists, otherwise
appends the new row. -/
def insertOrIgnore (t : TilesTable) (k : TileKey) (b : TileBytes) : TilesTable :=
  if hasKey t k then t else t ++ [(k, b)]

/-- The rows of the table whose primary key is `k`. -/
def rowsFor (t : TilesTable) (k : TileKey) : TilesTable :=
  t.filter fun r => decide (r.1 = k)

/-- Insert one row per job, in order, each via `INSERT OR IGNORE`
(`bytesOf j` being the payload fetched for job `j`) — the storage effect of a
run in which every fetch succeeded. -/
def insertAll (t : TilesTable) (jobs : List TileKey) (bytesOf : TileKey → TileBytes) :
    TilesTable :=
  jobs.foldl (fun acc j => insertOrIgnore acc j (bytesOf j)) t

/-! ## Discrete model: `download_tile` -/

/-- Outcome of the `requests.get` call in `download_tile`: either a response
carrying an HTTP status code and a body, or a transport-level error (a
`RequestException` whose `response` attribute is `None`). -/
inductive FetchOutcome where
  | response (status : ℕ) (body : TileBytes)
  | transportFailure
deriving DecidableEq

/-- An exception escaping from, or handled inside, `download_tile`:
an `HTTPError` from `raise_for_status` (carrying the response), a transport
`RequestException` with no response, or an `OSError` from reading or writing
the cache file (which is not a `RequestException`). -/
inductive WorkerError where
  | httpError (status : ℕ)
  | transportFailure
  | cacheReadFailure
  | cacheWriteFailure
deriving DecidableEq

/-- Outcome of `open(cache_path, "rb").read()` when attempted. -/
inductive ReadOutcome where
  | ok (b : TileBytes)
  | ioFailure
deriving DecidableEq

/-- Outcome of `open(cache_path, "wb").write(...)` when attempted. -/
inductive WriteOutcome where
  | ok
  | ioFailure
deriving DecidableEq

/-- The environment one `download_tile` call runs in: whether a cache
directory is configured, whether the cache file for this coordinate exists,
what reading it would yield, what the network fetch would yield, what
writing the cache would yield, and the `skip_on_failure` /
`log_failed_urls_to` configuration. -/
structure TileEnv where
  cacheDir : Bool
  cacheExists : Bool
  cacheRead : ReadOutcome
  fetch : FetchOutcome
  cacheWrite : WriteOutcome
  skipOnFailure : Bool
  logFailedUrls : Bool
deriving DecidableEq

/-- Observable result of one `download_tile` call: the exception escaping it
(if any), the payload passed to the tiles-table insert (if reached), whether
`requests.get` was called, whether the cache file was written, whether a
line with the tile URL was appended to the failure log, and the failure
handled by the `skip_on_failure` branch (if any). -/
structure TileResult where
  raised : Option WorkerError
  inserted : Option TileBytes
  fetched : Bool
  wroteCache : Bool
  loggedUrl : Bool
  failureRecord : Option WorkerError
deriving DecidableEq

/-- Truthiness of `e.response` in the failure handler.  For a transport
error `e.response` is `None` (falsy).  For an `HTTPError` it is the
`requests.Response` object, whose `__bool__` is `self.ok`, i.e.
`status_code < 400` — so a 4xx/5xx response is falsy. -/
def responseTruthy : WorkerError → Bool
  | .httpError s => s < 400
  | _ => false

/-- The `e.response.status_code == 404` test, evaluated only after
`e.response` was truthy. -/
def errorStatus404 : WorkerError → Bool
  | .httpError s => s == 404
  | _ => false

/-- The `except requests.exceptions.RequestException as e` handler at the
end of `download_tile` (lines 352-360): with `skip_on_failure` the failure is
handled in place (optionally appending the URL to the failure log, guarded by
`log_failed_urls_to and e.response and e.response.status_code == 404`);
without it the exception is re-raised. -/
def handleFetchFailure (env : TileEnv) (e : WorkerError) : TileResult :=
  if env.skipOnFailure then
    { raised := none, inserted := none, fetched := true, wroteCache := false,
      loggedUrl := env.logFailedUrls && (responseTruthy e && errorStatus404 e),
      failureRecord := some e }
  else
    { raised := some e, inserted := none, fetched := true, wroteCache := false,
      loggedUrl := false, failureRecord := none }

/-- Shallow embedding of `download_tile` (lines 319-360).  If a cache
directory is configured and the cache file exists, the bytes are read from
it and inserted, with no network request; an `OSError` during that read is
not caught by anything.  Otherwise `requests.get` runs;
`raise_for_status()` raises exactly for statuses `>= 400`; on success the
bytes are optionally written to the cache (an `OSError` there escapes the
`try`, which only catches `RequestException`) and then inserted. -/
def download_tile (env : TileEnv) : TileResult :=
  if env.cacheDir && env.cacheExists then
    match env.cacheRead with
    | .ioFailure =>
      { raised := some .cacheReadFailure, inserted := none, fetched := false,
        wroteCache := false, loggedUrl := false, failureRecord := none }
    | .ok b =>
      { raised := none, inserted := some b, fetched := false,
        wroteCache := false, loggedUrl := false, failureRecord := none }
  else
    match env.fetch with
    | .transportFailure => handleFetchFailure env .transportFailure
    | .response s body =>
      if 400 ≤ s then
        handleFetchFailure env (.httpError s)
      else if env.cacheDir then
        match env.cacheWrite with
        | .ioFailure =>
          { raised := some .cacheWriteFailure, inserted := none, fetched := true,
            wroteCache := false, loggedUrl := false, failureRecord := none }
        | .ok =>
          { raised := none, inserted := some body, fetched := true,
            wroteCache := true, loggedUrl := false, failureRecord := none }
      else
        { raised := none, inserted := some body, fetched := true,
          wroteCache := false, loggedUrl := false, failureRecord := none }

/-- The error `download_tile`'s fetch path raises for a given fetch outcome,
if any: `raise_for_status` turns statuses `>= 400` into an `HTTPError`;
transport failures are `RequestException`s already; statuses `< 400` raise
nothing. -/
def fetchError : FetchOutcome → Option WorkerError
  | .transportFailure => some .transportFailure
  | .response s _ => if 400 ≤ s then some (.httpError s) else none

/-- The worker pool of `cli`, abstracted over scheduling: `executor.map`
submits every job, and the first exception among the results re-raises while
`cli` iterates them, aborting the run.  The per-job work is `download_tile`. -/
def runJobs (envs : List TileEnv) : Except WorkerError (List TileResult) :=
  match (envs.map download_tile).findSome? (fun r => r.raised) with
  | some e => .error e
  | none => .ok (envs.map download_tile)

/-! ## Discrete model: job enumeration and headers -/

/-- Python's `range(a, b)` over integers, as a list. -/
def intRange (a b : ℤ) : List ℤ :=
  (List.range (b - a).toNat).map fun (i : ℕ) => a + (i : ℤ)

/-- The per-zoom enumeration loop of `cli` (lines 232-245): one candidate per
`(x, y)` in `range(x_min, x_max + 1) × range(y_min, y_max + 1)`; with
`--continue`, a candidate whose `(zoom_level, tile_column, tile_row)` row
already exists in the tiles table is skipped (`continue`) before any job is
created. -/
def tilesForZoom (zoom : ℕ) (xmin xmax ymin ymax : ℤ) (continueDownload : Bool)
    (existing : ℕ → ℤ → ℤ → Bool) : List TileKey :=
  ((intRange xmin (xmax + 1)).map fun x =>
    (intRange ymin (ymax + 1)).filterMap fun y =>
      if continueDownload && existing zoom x y then none else some (zoom, x, y)).flatten

/-- Number of network requests a list of jobs performs, job `j` running in
environment `envOf j`. -/
def networkFetches (jobs : List TileKey) (envOf : TileKey → TileEnv) : ℕ :=
  ((jobs.map fun j => download_tile (envOf j)).filter fun r => r.fetched).length

/-- The header selection in `cli` (lines 209-212): a non-empty `--referer`
produces `{"Referer": referer}`, otherwise `{"User-Agent": user_agent}`. -/
def buildHeaders (referer userAgent : String) : List (String × String) :=
  if referer ≠ "" then [("Referer", referer)] else [("User-Agent", userAgent)]

/-! ## Real-number model: `deg2num` and the per-zoom tile rectangle -/

open Real

/-- Python's `int()` applied to a float: truncation toward zero. -/
noncomputable def pyint (x : ℝ) : ℤ :=
  if 0 ≤ x then ⌊x⌋ else ⌈x⌉

/-- The latitude clamp at the top of `deg2num`:
`max(min(85.0511, lat_deg), -85.0511)`. -/
noncomputable def clampLat (lat : ℝ) : ℝ :=
  max (min 85.0511 lat) (-85.0511)

/-- The fraction `(lon_deg + 180.0) / 360.0` that `deg2num` scales by
`2.0 ** zoom` to obtain `xtile`. -/
noncomputable def xFrac (lon : ℝ) : ℝ :=
  (lon + 180) / 360

/-- The fraction `(1.0 - log(tan(lat_rad) + (1 / cos(lat_rad))) / pi) / 2.0`
that `deg2num` scales by `2.0 ** zoom` to obtain `ytile`, with
`lat_rad = lat_deg * pi / 180` after clamping. -/
noncomputable def yFrac (lat : ℝ) : ℝ :=
  (1 - Real.log (Real.tan (clampLat lat * π / 180)
      + 1 / Real.cos (clampLat lat * π / 180)) / π) / 2

/-- Shallow embedding of `deg2num` (lines 60-66):
`xtile = int((lon_deg + 180.0) / 360.0 * n)` and
`ytile = int((1.0 - log(tan(lat_rad) + (1 / cos(lat_rad))) / pi) / 2.0 * n)`
with `n = 2.0 ** zoom` and the latitude clamped to `[-85.0511, 85.0511]`. -/
noncomputable def deg2num (lat lon : ℝ) (zoom : ℕ) : ℤ × ℤ :=
  (pyint (xFrac lon * 2 ^ zoom), pyint (yFrac lat * 2 ^ zoom))

/-- The per-zoom tile rectangle of `cli` (lines 226-230):
`(x_min, y_min) = deg2num(max_lat, min_lon, zoom)` (north-west corner) and
`(x_max, y_max) = deg2num(min_lat, max_lon, zoom)` (south-east corner),
returned as `(x_min, y_min, x_max, y_max)`. -/
noncomputable def bboxToTileRect (min_lon min_lat max_lon max_lat : ℝ) (zoom : ℕ) :
    ℤ × ℤ × ℤ × ℤ :=
  let top_left := deg2num max_lat min_lon zoom
  let bottom_right := deg2num min_lat max_lon zoom
  (top_left.1, top_left.2, bottom_right.1, bottom_right.2)

/-! ## Properties of `pyint` -/

theorem pyint_of_nonneg {x : ℝ} (h : 0 ≤ x) : pyint x = ⌊x⌋ := if_pos h

theorem pyint_mono : Monotone pyint := by
  intro a b hab
  unfold pyint
  by_cases ha : 0 ≤ a
  · rw [if_pos ha, if_pos (ha.trans hab)]
    exact Int.floor_mono hab
  · rw [if_neg ha]
    by_cases hb : 0 ≤ b
    · rw [if_pos hb]
      calc ⌈a⌉ ≤ 0 := Int.ceil_le.mpr (by push_cast; linarith [le_of_not_le ha])
        _ ≤ ⌊b⌋ := Int.floor_nonneg.mpr hb
    · rw [if_neg hb]
      exact Int.ceil_mono hab

theorem pyint_nonneg {x : ℝ} (h : 0 ≤ x) : 0 ≤ pyint x := by
  rw [pyint_of_nonneg h]
  exact Int.floor_nonneg.mpr h

theorem pyint_lt {x : ℝ} {m : ℤ} (h0 : 0 ≤ x) (h : x < (m : ℝ)) : pyint x < m := by
  rw [pyint_of_nonneg h0]
  exact Int.floor_lt.mpr h

theorem pyint_le {x : ℝ} {m : ℤ} (h0 : 0 ≤ x) (h : x ≤ (m : ℝ)) : pyint x ≤ m := by
  rw [pyint_of_nonneg h0]
  calc ⌊x⌋ ≤ ⌊(m : ℝ)⌋ := Int.floor_mono h
    _ = m := Int.floor_intCast m

/-! ## The inverse-Gudermannian term of `deg2num` -/

/-- On the open half-period the argument of the logarithm in `deg2num`
rewrites to `(1 + sin θ) / cos θ`. -/
theorem tan_add_sec_eq {θ : ℝ} (h : Real.cos θ ≠ 0) :
    Real.tan θ + 1 / Real.cos θ = (1 + Real.sin θ) / Real.cos θ := by
  rw [Real.tan_eq_sin_div_cos]
  field_simp
  ring

/-- Strict positivity of `1 + sin θ` strictly inside `(-π/2, π/2)`. -/
theorem one_add_sin_pos {θ : ℝ} (h1 : -(π / 2) < θ) (h2 : θ < π / 2) :
    0 < 1 + Real.sin θ := by
  have hmem1 : -(π / 2) ∈ Set.Icc (-(π / 2)) (π / 2) := by
    constructor
    · exact le_refl _
    · linarith [Real.pi_pos]
  have hmem2 : θ ∈ Set.Icc (-(π / 2)) (π / 2) := ⟨h1.le, h2.le⟩
  have := Real.strictMonoOn_sin hmem1 hmem2 h1
  rw [Real.sin_neg, Real.sin_pi_div_two] at this
  linarith

/-- The argument of the logarithm in `deg2num` is positive strictly inside
`(-π/2, π/2)`. -/
theorem tan_add_sec_pos {θ : ℝ} (h1 : -(π / 2) < θ) (h2 : θ < π / 2) :
    0 < Real.tan θ + 1 / Real.cos θ := by
  have hc : 0 < Real.cos θ := Real.cos_pos_of_mem_Ioo ⟨h1, h2⟩
  rw [tan_add_sec_eq hc.ne']
  exact div_pos (one_add_sin_pos h1 h2) hc

/-- Monotonicity of the argument of the logarithm in `deg2num` on
`(-π/2, π/2)`: higher latitude gives a larger inverse-Gudermannian
argument. -/
theorem tan_add_sec_mono {a b : ℝ} (ha : -(π / 2) < a) (hab : a ≤ b) (hb : b < π / 2) :
    Real.tan a + 1 / Real.cos a ≤ Real.tan b + 1 / Real.cos b := by
  have hca : 0 < Real.cos a := Real.cos_pos_of_mem_Ioo ⟨ha, lt_of_le_of_lt hab hb⟩
  have hcb : 0 < Real.cos b := Real.cos_pos_of_mem_Ioo ⟨lt_of_lt_of_le ha hab, hb⟩
  rw [tan_add_sec_eq hca.ne', tan_add_sec_eq hcb.ne', div_le_div_iff₀ hca hcb]
  -- reduces to: cos b - cos a ≤ sin (b - a)
  have hd0 : 0 ≤ (b - a) / 2 := by linarith
  have hdpi : (b - a) / 2 ≤ π := by linarith [Real.pi_pos]
  have hsd : 0 ≤ Real.sin ((b - a) / 2) := Real.sin_nonneg_of_nonneg_of_le_pi hd0 hdpi
  have hsm : Real.sin ((b - a) / 2 - π / 2) ≤ Real.sin ((b + a) / 2) := by
    have hm1 : (b - a) / 2 - π / 2 ∈ Set.Icc (-(π / 2)) (π / 2) := by
      constructor
      · linarith
      · linarith
    have hm2 : (b + a) / 2 ∈ Set.Icc (-(π / 2)) (π / 2) := by
      constructor
      · linarith
      · linarith
    exact Real.strictMonoOn_sin.monotoneOn hm1 hm2 (by linarith)
  rw [show (b - a) / 2 - π / 2 = -(π / 2 - (b - a) / 2) by ring, Real.sin_neg,
    Real.sin_pi_div_two_sub] at hsm
  have hkey : Real.cos b - Real.cos a ≤ Real.sin (b - a) := by
    have h1 : Real.cos b - Real.cos a
        = -2 * Real.sin ((b + a) / 2) * Real.sin ((b - a) / 2) := Real.cos_sub_cos b a
    have h2 : Real.sin (b - a)
        = 2 * Real.sin ((b - a) / 2) * Real.cos ((b - a) / 2) := by
      have h2' := Real.sin_two_mul ((b - a) / 2)
      rw [show 2 * ((b - a) / 2) = b - a by ring] at h2'
      exact h2'
    rw [h1, h2]
    nlinarith [hsd, hsm]
  rw [Real.sin_sub] at hkey
  nlinarith [hkey]

/-- Numeric core of the projection-range proof: at the clamped latitude,
the inverse-Gudermannian argument stays strictly below `exp π`.  The clamp
constant 85.0511° lies strictly inside the Web-Mercator limit
`atan(sinh(π)) ≈ 85.05112878°`, with a relative margin of about `6e-6`,
which the rational bound chain below certifies. -/
theorem tan_add_sec_clamp_lt_exp_pi :
    Real.tan (85.0511 * π / 180) + 1 / Real.cos (85.0511 * π / 180) < Real.exp π := by
  set v : ℝ := 49489 * π / 3600000 with hv
  have hθ : (85.0511 : ℝ) * π / 180 = π / 2 - 2 * v := by
    rw [hv]; ring
  have hπlo : (3.1415926535 : ℝ) < π := lt_trans (by norm_num) Real.pi_gt_d20
  have hπhi : π < (3.1415926536 : ℝ) := lt_trans Real.pi_lt_d20 (by norm_num)
  have hv_lo : (0.0431872996 : ℝ) ≤ v := by rw [hv]; linarith
  have hv_hi : v ≤ (0.0431872997 : ℝ) := by rw [hv]; linarith
  have hv0 : (0 : ℝ) < v := lt_of_lt_of_le (by norm_num) hv_lo
  have hv1 : |v| ≤ 1 := by rw [abs_of_pos hv0]; linarith
  -- rational bounds on the powers of v
  have hv3 : v ^ 3 ≤ (0.000080550484 : ℝ) := by
    calc v ^ 3 ≤ (0.0431872997 : ℝ) ^ 3 := pow_le_pow_left₀ hv0.le hv_hi 3
      _ ≤ (0.000080550484 : ℝ) := by norm_num
  have hv4 : v ^ 4 ≤ (0.0000034787579 : ℝ) := by
    calc v ^ 4 ≤ (0.0431872997 : ℝ) ^ 4 := pow_le_pow_left₀ hv0.le hv_hi 4
      _ ≤ (0.0000034787579 : ℝ) := by norm_num
  have hv2 : (0.0018651428 : ℝ) ≤ v ^ 2 := by
    calc (0.0018651428 : ℝ) ≤ (0.0431872996 : ℝ) ^ 2 := by norm_num
      _ ≤ v ^ 2 := pow_le_pow_left₀ (by norm_num) hv_lo 2
  -- Taylor bounds on sin and cos at v
  have habs4 : |v| ^ 4 = v ^ 4 := by rw [abs_of_pos hv0]
  have hS : (0.0431736933 : ℝ) ≤ Real.sin v := by
    have h := abs_le.mp (Real.sin_bound hv1)
    rw [habs4] at h
    linarith [h.1]
  have hC : Real.cos v ≤ (0.9990676098 : ℝ) := by
    have h := abs_le.mp (Real.cos_bound hv1)
    rw [habs4] at h
    linarith [h.2]
  -- a rational lower bound on exp π
  have hE : (23.14069 : ℝ) ≤ Real.exp π := by
    have hexp3 : (20.0855369 : ℝ) ≤ Real.exp 3 := by
      have h1 : Real.exp 3 = Real.exp 1 * Real.exp 1 * Real.exp 1 := by
        rw [show (3 : ℝ) = 1 + 1 + 1 by norm_num, Real.exp_add, Real.exp_add]
      nlinarith [Real.exp_one_gt_d9, Real.exp_pos 1]
    have hexpx : (1.1521072 : ℝ) ≤ Real.exp (0.1415926535 : ℝ) := by
      have h := Real.sum_le_exp_of_nonneg (x := (0.1415926535 : ℝ)) (by norm_num) 8
      have hsum : ∑ i ∈ Finset.range 8, (0.1415926535 : ℝ) ^ i / (Nat.factorial i) =
          1 + 0.1415926535 + 0.1415926535 ^ 2 / 2 + 0.1415926535 ^ 3 / 6
          + 0.1415926535 ^ 4 / 24 + 0.1415926535 ^ 5 / 120 + 0.1415926535 ^ 6 / 720
          + 0.1415926535 ^ 7 / 5040 := by
        simp [Finset.sum_range_succ, Nat.factorial]
      rw [hsum] at h
      nlinarith [h]
    have hexpm : Real.exp (0.1415926535 : ℝ) ≤ Real.exp (π - 3) :=
      Real.exp_le_exp.mpr (by linarith)
    have hsplit : Real.exp π = Real.exp 3 * Real.exp (π - 3) := by
      rw [← Real.exp_add]
      norm_num
    rw [hsplit]
    calc (23.14069 : ℝ) ≤ 20.0855369 * 1.1521072 := by norm_num
      _ ≤ Real.exp 3 * Real.exp (π - 3) := by
        apply mul_le_mul hexp3 (le_trans hexpx hexpm) (by norm_num) (Real.exp_pos 3).le
  -- positivity of sin v and cos v
  have hsin_pos : 0 < Real.sin v :=
    Real.sin_pos_of_pos_of_lt_pi hv0 (by linarith [Real.pi_gt_three])
  have hcos_pos : 0 < Real.cos v := by
    apply Real.cos_pos_of_mem_Ioo
    constructor
    · linarith [Real.pi_gt_three]
    · linarith [Real.pi_gt_three]
  -- reduce the goal to cos v < exp π * sin v
  rw [hθ, Real.tan_eq_sin_div_cos, Real.sin_pi_div_two_sub, Real.cos_pi_div_two_sub,
    Real.sin_two_mul, Real.cos_two_mul]
  have heq : (2 * Real.cos v ^ 2 - 1) / (2 * Real.sin v * Real.cos v)
      + 1 / (2 * Real.sin v * Real.cos v) = Real.cos v / Real.sin v := by
    field_simp
    ring
  rw [heq, div_lt_iff₀ hsin_pos]
  calc Real.cos v ≤ (0.9990676098 : ℝ) := hC
    _ < 23.14069 * 0.0431736933 := by norm_num
    _ ≤ Real.exp π * Real.sin v :=
      mul_le_mul hE hS (by norm_num) (Real.exp_pos π).le

/-! ## Range and monotonicity of the projection fractions -/

theorem clampLat_le (lat : ℝ) : clampLat lat ≤ 85.0511 :=
  max_le (min_le_left _ _) (by norm_num)

theorem le_clampLat (lat : ℝ) : -85.0511 ≤ clampLat lat := le_max_right _ _

theorem clampLat_mono : Monotone clampLat := fun _ _ h =>
  max_le_max (min_le_min (le_refl _) h) (le_refl _)

/-- Angle bounds for the clamped latitude in radians: it stays in
`[-θ₀, θ₀]` with `θ₀ = 85.0511·π/180 < π/2`. -/
theorem clampAngle_mem (lat : ℝ) :
    -(85.0511 * π / 180) ≤ clampLat lat * π / 180
      ∧ clampLat lat * π / 180 ≤ 85.0511 * π / 180 := by
  constructor
  · have h := le_clampLat lat
    have hπ : (0 : ℝ) ≤ π / 180 := by positivity
    nlinarith [h, hπ]
  · have h := clampLat_le lat
    have hπ : (0 : ℝ) ≤ π / 180 := by positivity
    nlinarith [h, hπ]

theorem clampAngle_lt_pi_div_two : (85.0511 : ℝ) * π / 180 < π / 2 := by
  nlinarith [Real.pi_pos]

theorem neg_pi_div_two_lt_clampAngle : -(π / 2) < -((85.0511 : ℝ) * π / 180) := by
  nlinarith [Real.pi_pos]

/-- The `y` fraction of `deg2num` is strictly positive for every latitude:
the clamp keeps the inverse-Gudermannian value strictly below `π`. -/
theorem yFrac_pos (lat : ℝ) : 0 < yFrac lat := by
  set θ := clampLat lat * π / 180 with hθdef
  obtain ⟨hθlo, hθhi⟩ := clampAngle_mem lat
  have h1 : -(π / 2) < θ := lt_of_lt_of_le neg_pi_div_two_lt_clampAngle hθlo
  have h2 : θ < π / 2 := lt_of_le_of_lt hθhi clampAngle_lt_pi_div_two
  have hw_pos : 0 < Real.tan θ + 1 / Real.cos θ := tan_add_sec_pos h1 h2
  have hw_le : Real.tan θ + 1 / Real.cos θ
      ≤ Real.tan (85.0511 * π / 180) + 1 / Real.cos (85.0511 * π / 180) :=
    tan_add_sec_mono h1 hθhi clampAngle_lt_pi_div_two
  have hlt : Real.tan θ + 1 / Real.cos θ < Real.exp π :=
    lt_of_le_of_lt hw_le tan_add_sec_clamp_lt_exp_pi
  have hlog : Real.log (Real.tan θ + 1 / Real.cos θ) < π := by
    rw [Real.log_lt_iff_lt_exp hw_pos]
    exact hlt
  have hdiv : Real.log (Real.tan θ + 1 / Real.cos θ) / π < 1 :=
    (div_lt_one Real.pi_pos).mpr hlog
  unfold yFrac
  rw [← hθdef]
  linarith

/-- The `y` fraction of `deg2num` is strictly below one for every latitude:
the clamp keeps the inverse-Gudermannian value strictly above `-π`. -/
theorem yFrac_lt_one (lat : ℝ) : yFrac lat < 1 := by
  set θ := clampLat lat * π / 180 with hθdef
  obtain ⟨hθlo, hθhi⟩ := clampAngle_mem lat
  have h1 : -(π / 2) < θ := lt_of_lt_of_le neg_pi_div_two_lt_clampAngle hθlo
  have h2 : θ < π / 2 := lt_of_le_of_lt hθhi clampAngle_lt_pi_div_two
  have hw_pos : 0 < Real.tan θ + 1 / Real.cos θ := tan_add_sec_pos h1 h2
  have htop_pos : 0 < Real.tan (85.0511 * π / 180) + 1 / Real.cos (85.0511 * π / 180) :=
    tan_add_sec_pos (lt_trans neg_pi_div_two_lt_clampAngle (by nlinarith [Real.pi_pos]))
      clampAngle_lt_pi_div_two
  have hcos_top : Real.cos (85.0511 * π / 180) ≠ 0 := by
    have : 0 < Real.cos (85.0511 * π / 180) :=
      Real.cos_pos_of_mem_Ioo
        ⟨lt_trans neg_pi_div_two_lt_clampAngle (by nlinarith [Real.pi_pos]),
         clampAngle_lt_pi_div_two⟩
    exact this.ne'
  -- the value at the lower clamp is the reciprocal of the value at the upper clamp
  have hprod : (Real.tan (-(85.0511 * π / 180)) + 1 / Real.cos (-(85.0511 * π / 180)))
      * (Real.tan (85.0511 * π / 180) + 1 / Real.cos (85.0511 * π / 180)) = 1 := by
    rw [Real.tan_neg, Real.cos_neg, Real.tan_eq_sin_div_cos]
    field_simp
    linear_combination (-Real.cos (85.0511 * π / 180))
      * Real.sin_sq_add_cos_sq (85.0511 * π / 180)
  have hw_ge : Real.tan (-(85.0511 * π / 180)) + 1 / Real.cos (-(85.0511 * π / 180))
      ≤ Real.tan θ + 1 / Real.cos θ :=
    tan_add_sec_mono neg_pi_div_two_lt_clampAngle hθlo h2
  have hbot_gt : Real.exp (-π)
      < Real.tan (-(85.0511 * π / 180)) + 1 / Real.cos (-(85.0511 * π / 180)) := by
    have hrecip : Real.tan (-(85.0511 * π / 180)) + 1 / Real.cos (-(85.0511 * π / 180))
        = 1 / (Real.tan (85.0511 * π / 180) + 1 / Real.cos (85.0511 * π / 180)) :=
      eq_one_div_of_mul_eq_one_left hprod
    rw [hrecip, Real.exp_neg, ← one_div]
    exact one_div_lt_one_div_of_lt htop_pos tan_add_sec_clamp_lt_exp_pi
  have hgt : Real.exp (-π) < Real.tan θ + 1 / Real.cos θ := lt_of_lt_of_le hbot_gt hw_ge
  have hlog : -π < Real.log (Real.tan θ + 1 / Real.cos θ) := by
    rw [Real.lt_log_iff_exp_lt hw_pos]
    exact hgt
  have hdiv : -1 < Real.log (Real.tan θ + 1 / Real.cos θ) / π := by
    rw [lt_div_iff₀ Real.pi_pos]
    linarith
  unfold yFrac
  rw [← hθdef]
  linarith

/-- The `y` fraction of `deg2num` does not increase with latitude (the
slippy-map row axis points south). -/
theorem yFrac_anti : Antitone yFrac := by
  intro a b hab
  obtain ⟨halo, hahi⟩ := clampAngle_mem a
  obtain ⟨hblo, hbhi⟩ := clampAngle_mem b
  have h1a : -(π / 2) < clampLat a * π / 180 :=
    lt_of_lt_of_le neg_pi_div_two_lt_clampAngle halo
  have h2a : clampLat a * π / 180 < π / 2 :=
    lt_of_le_of_lt hahi clampAngle_lt_pi_div_two
  have h1b : -(π / 2) < clampLat b * π / 180 :=
    lt_of_lt_of_le neg_pi_div_two_lt_clampAngle hblo
  have h2b : clampLat b * π / 180 < π / 2 :=
    lt_of_le_of_lt hbhi clampAngle_lt_pi_div_two
  have hθab : clampLat a * π / 180 ≤ clampLat b * π / 180 := by
    have h := clampLat_mono hab
    have hπ : (0 : ℝ) ≤ π / 180 := by positivity
    nlinarith [h, hπ]
  have hwa_pos : 0 < Real.tan (clampLat a * π / 180) + 1 / Real.cos (clampLat a * π / 180) :=
    tan_add_sec_pos h1a h2a
  have hwb_pos : 0 < Real.tan (clampLat b * π / 180) + 1 / Real.cos (clampLat b * π / 180) :=
    tan_add_sec_pos h1b h2b
  have hw : Real.tan (clampLat a * π / 180) + 1 / Real.cos (clampLat a * π / 180)
      ≤ Real.tan (clampLat b * π / 180) + 1 / Real.cos (clampLat b * π / 180) :=
    tan_add_sec_mono h1a hθab h2b
  have hlog : Real.log (Real.tan (clampLat a * π / 180) + 1 / Real.cos (clampLat a * π / 180))
      ≤ Real.log (Real.tan (clampLat b * π / 180) + 1 / Real.cos (clampLat b * π / 180)) :=
    (Real.log_le_log_iff hwa_pos hwb_pos).mpr hw
  unfold yFrac
  have hdiv : Real.log (Real.tan (clampLat a * π / 180) + 1 / Real.cos (clampLat a * π / 180)) / π
      ≤ Real.log (Real.tan (clampLat b * π / 180) + 1 / Real.cos (clampLat b * π / 180)) / π := by
    apply div_le_div_of_nonneg_right hlog
    positivity
  linarith

/-- The x output of `deg2num` depends only on the longitude and is monotone
in it. -/
theorem deg2num_fst_mono {lon lon' : ℝ} (lat lat' : ℝ) (zoom : ℕ) (h : lon ≤ lon') :
    (deg2num lat lon zoom).1 ≤ (deg2num lat' lon' zoom).1 := by
  show pyint (xFrac lon * 2 ^ zoom) ≤ pyint (xFrac lon' * 2 ^ zoom)
  apply pyint_mono
  apply mul_le_mul_of_nonneg_right _ (by positivity)
  unfold xFrac
  linarith

/-- The y output of `deg2num` depends only on the latitude and does not
increase with it (the row axis points south). -/
theorem deg2num_snd_anti (lon lon' : ℝ) {lat lat' : ℝ} (zoom : ℕ) (h : lat ≤ lat') :
    (deg2num lat' lon zoom).2 ≤ (deg2num lat lon' zoom).2 := by
  show pyint (yFrac lat' * 2 ^ zoom) ≤ pyint (yFrac lat * 2 ^ zoom)
  apply pyint_mono
  exact mul_le_mul_of_nonneg_right (yFrac_anti h) (by positivity)

/-! ## Claim C1 -/

/-- C1 (amended): for every latitude in `[-90, 90]`, longitude in
`[-180, 180]` and zoom in `[0, 24]`, `deg2num` is deterministic (it is a
pure function of its arguments, so equal inputs give equal outputs) and its
outputs satisfy `0 ≤ x ≤ 2^zoom` — with `x < 2^zoom` whenever `lon < 180` —
and `0 ≤ y < 2^zoom`.  The original claim's `x < 2^zoom` fails exactly at
the right edge `lon = 180`, where `x = 2^zoom` (see `C1_counterexample`);
the `y` bound is as claimed. -/
theorem C1_project_range (lat lon : ℝ) (zoom : ℕ)
    (hlat1 : -90 ≤ lat) (hlat2 : lat ≤ 90)
    (hlon1 : -180 ≤ lon) (hlon2 : lon ≤ 180) (hzoom : zoom ≤ 24) :
    0 ≤ (deg2num lat lon zoom).1 ∧ (deg2num lat lon zoom).1 ≤ 2 ^ zoom ∧
      (lon < 180 → (deg2num lat lon zoom).1 < 2 ^ zoom) ∧
      0 ≤ (deg2num lat lon zoom).2 ∧ (deg2num lat lon zoom).2 < 2 ^ zoom := by
  have hn : (0 : ℝ) < 2 ^ zoom := by positivity
  have hx0 : 0 ≤ xFrac lon := by unfold xFrac; linarith
  have hx1 : xFrac lon ≤ 1 := by unfold xFrac; linarith
  have hy0 := yFrac_pos lat
  have hy1 := yFrac_lt_one lat
  have hfst : (deg2num lat lon zoom).1 = pyint (xFrac lon * 2 ^ zoom) := rfl
  have hsnd : (deg2num lat lon zoom).2 = pyint (yFrac lat * 2 ^ zoom) := rfl
  rw [hfst, hsnd]
  refine ⟨?_, ?_, ?_, ?_, ?_⟩
  · exact pyint_nonneg (mul_nonneg hx0 hn.le)
  · apply pyint_le (mul_nonneg hx0 hn.le)
    push_cast
    calc xFrac lon * 2 ^ zoom ≤ 1 * 2 ^ zoom := mul_le_mul_of_nonneg_right hx1 hn.le
      _ = 2 ^ zoom := one_mul _
  · intro hlon
    apply pyint_lt (mul_nonneg hx0 hn.le)
    push_cast
    have hxlt : xFrac lon < 1 := by unfold xFrac; linarith
    calc xFrac lon * 2 ^ zoom < 1 * 2 ^ zoom := mul_lt_mul_of_pos_right hxlt hn
      _ = 2 ^ zoom := one_mul _
  · exact pyint_nonneg (mul_nonneg hy0.le hn.le)
  · apply pyint_lt (mul_nonneg hy0.le hn.le)
    push_cast
    calc yFrac lat * 2 ^ zoom < 1 * 2 ^ zoom := mul_lt_mul_of_pos_right hy1 hn
      _ = 2 ^ zoom := one_mul _

/-- Witness for C1 at `(lat, lon, zoom) = (0, 0, 1)`. -/
theorem C1_project_range_witness :
    0 ≤ (deg2num 0 0 1).1 ∧ (deg2num 0 0 1).1 ≤ 2 ^ 1 ∧
      (deg2num 0 0 1).1 < 2 ^ 1 ∧
      0 ≤ (deg2num 0 0 1).2 ∧ (deg2num 0 0 1).2 < 2 ^ 1 := by
  have h := C1_project_range 0 0 1 (by norm_num) (by norm_num) (by norm_num)
    (by norm_num) (by norm_num)
  exact ⟨h.1, h.2.1, h.2.2.1 (by norm_num), h.2.2.2.1, h.2.2.2.2⟩

/-- C1 counterexample: at `(lat, lon, zoom) = (0, 180, 0)` — inside the
domain the claim quantifies over — `deg2num` returns `x = 1 = 2^0`, which is
not in the claimed half-open interval `[0, 2^0)`.  (The arithmetic is exact
in IEEE doubles as well: `(180.0 + 180.0) / 360.0 * 1.0 == 1.0`.) -/
theorem C1_counterexample : ¬ ((deg2num 0 180 0).1 < 2 ^ 0) := by
  have h1 : (deg2num 0 180 0).1 = pyint (xFrac 180 * 2 ^ 0) := rfl
  have harg : xFrac 180 * (2 : ℝ) ^ (0 : ℕ) = 1 := by unfold xFrac; norm_num
  have h2 : (deg2num 0 180 0).1 = 1 := by
    rw [h1, harg, pyint_of_nonneg (by norm_num)]
    exact Int.floor_one
  rw [h2]
  norm_num

/-! ## Claim C9 -/

/-- C9: `bboxToTileRect` is monotone.  The rectangle (cli lines 226-230) is
`(x_min, y_min) = deg2num(max_lat, min_lon, zoom)` (north-west corner) and
`(x_max, y_max) = deg2num(min_lat, max_lon, zoom)` (south-east corner).  If
bbox 1 is contained in bbox 2 — `minLon2 ≤ minLon1`, `minLat2 ≤ minLat1`,
`maxLon1 ≤ maxLon2`, `maxLat1 ≤ maxLat2` — then at every zoom the tile
rectangle of bbox 1 is contained in that of bbox 2: `xMin2 ≤ xMin1`,
`yMin2 ≤ yMin1`, `xMax1 ≤ xMax2`, `yMax1 ≤ yMax2`.  Each side follows from
one of two facts about `deg2num`: its x output is monotone in longitude
(`xFrac` is affine increasing, `pyint` is monotone), and its y output is
antitone in latitude (the clamp is monotone, `tan θ + 1/cos θ` is monotone
on `(-π/2, π/2)`, `log` is monotone, and the leading `1 - ... / π`
reverses the direction — the y-axis inversion of the slippy-map grid, by
which the larger `maxLat2` gives the *smaller* `yMin2`). -/
theorem C9_bboxToTileRect_mono
    (minLon1 minLat1 maxLon1 maxLat1 minLon2 minLat2 maxLon2 maxLat2 : ℝ) (zoom : ℕ)
    (h1 : minLon2 ≤ minLon1) (h2 : minLat2 ≤ minLat1)
    (h3 : maxLon1 ≤ maxLon2) (h4 : maxLat1 ≤ maxLat2) :
    (bboxToTileRect minLon2 minLat2 maxLon2 maxLat2 zoom).1
        ≤ (bboxToTileRect minLon1 minLat1 maxLon1 maxLat1 zoom).1
      ∧ (bboxToTileRect minLon2 minLat2 maxLon2 maxLat2 zoom).2.1
        ≤ (bboxToTileRect minLon1 minLat1 maxLon1 maxLat1 zoom).2.1
      ∧ (bboxToTileRect minLon1 minLat1 maxLon1 maxLat1 zoom).2.2.1
        ≤ (bboxToTileRect minLon2 minLat2 maxLon2 maxLat2 zoom).2.2.1
      ∧ (bboxToTileRect minLon1 minLat1 maxLon1 maxLat1 zoom).2.2.2
        ≤ (bboxToTileRect minLon2 minLat2 maxLon2 maxLat2 zoom).2.2.2 := by
  refine ⟨?_, ?_, ?_, ?_⟩
  -- x_min comes from min_lon: the wider bbox's smaller min_lon gives a
  -- tile column at most as large
  · exact deg2num_fst_mono maxLat2 maxLat1 zoom h1
  -- y_min comes from max_lat: the wider bbox's larger max_lat gives a tile
  -- row at most as large
  · exact deg2num_snd_anti minLon2 minLon1 zoom h4
  -- x_max comes from max_lon: the wider bbox's larger max_lon gives a tile
  -- column at least as large
  · exact deg2num_fst_mono minLat1 minLat2 zoom h3
  -- y_max comes from min_lat: the wider bbox's smaller min_lat gives a tile
  -- row at least as large
  · exact deg2num_snd_anti maxLon1 maxLon2 zoom h2

/-- Witness for C9: the unit bbox around the origin inside the double bbox,
at zoom 0. -/
theorem C9_bboxToTileRect_mono_witness :
    (bboxToTileRect (-2) (-2) 2 2 0).1 ≤ (bboxToTileRect (-1) (-1) 1 1 0).1
      ∧ (bboxToTileRect (-2) (-2) 2 2 0).2.1 ≤ (bboxToTileRect (-1) (-1) 1 1 0).2.1
      ∧ (bboxToTileRect (-1) (-1) 1 1 0).2.2.1 ≤ (bboxToTileRect (-2) (-2) 2 2 0).2.2.1
      ∧ (bboxToTileRect (-1) (-1) 1 1 0).2.2.2 ≤ (bboxToTileRect (-2) (-2) 2 2 0).2.2.2 :=
  C9_bboxToTileRect_mono (-1) (-1) 1 1 (-2) (-2) 2 2 0 (by norm_num) (by norm_num)
    (by norm_num) (by norm_num)

/-! ## Claim C2 -/

/-- C2 (amended): the metadata/application-id writes are retry-wrapped, the
per-tile inserts are not.  In detail: the application-id write makes up to 5
attempts on "database is locked" with back-off delays doubling from 1 (its
sleeps are the prefix `[1, 2, 4, ...]` of length = number of locked attempts,
and all five attempts locked raises after sleeps `[1, 2, 4, 8]`); it succeeds
as soon as any attempt succeeds, and any error of another class raises
immediately; the following metadata write reuses the same loop but its
delays continue from the `retry_delay` value the application-id write left
behind (`2^k` after `k` sleeps) rather than restarting at 1.  The per-tile
insert into the tiles table makes exactly one attempt with no sleeps and
raises any error at once. -/
theorem C2_retry_behaviour (f g : ℕ → SqlOutcome) (k : ℕ) (hk : k ≤ 4)
    (hlock : ∀ j, j < k → f j = .locked) :
    ((tileInsertRun f).attempts = 1 ∧ (tileInsertRun f).sleeps = []
        ∧ ((tileInsertRun f).raised = none ↔ f 0 = .success))
      ∧ (f k = .success →
          retriedWrite f 1 = ⟨none, k + 1, (List.range k).map (2 ^ ·), 2 ^ k⟩
            ∧ stampSequence f g
              = (⟨none, k + 1, (List.range k).map (2 ^ ·), 2 ^ k⟩,
                 some (retriedWrite g (2 ^ k))))
      ∧ (f k = .otherError →
          retriedWrite f 1
            = ⟨some .otherError, k + 1, (List.range k).map (2 ^ ·), 2 ^ k⟩)
      ∧ ((∀ j, j ≤ 4 → f j = .locked) →
          retriedWrite f 1 = ⟨some .locked, 5, [1, 2, 4, 8], 16⟩) := by
  refine ⟨?_, ?_, ?_, ?_⟩
  · cases h : f 0 <;> simp [tileInsertRun, h]
  · intro hs
    have hw : retriedWrite f 1 = ⟨none, k + 1, (List.range k).map (2 ^ ·), 2 ^ k⟩ := by
      interval_cases k
      · simp [retriedWrite, retryGo, hs]
      · simp [retriedWrite, retryGo, hlock 0 (by norm_num), hs, List.range_succ]
      · simp [retriedWrite, retryGo, hlock 0 (by norm_num), hlock 1 (by norm_num), hs,
          List.range_succ]
      · simp [retriedWrite, retryGo, hlock 0 (by norm_num), hlock 1 (by norm_num),
          hlock 2 (by norm_num), hs, List.range_succ]
      · simp [retriedWrite, retryGo, hlock 0 (by norm_num), hlock 1 (by norm_num),
          hlock 2 (by norm_num), hlock 3 (by norm_num), hs, List.range_succ]
    refine ⟨hw, ?_⟩
    unfold stampSequence
    rw [hw]
  · intro hs
    interval_cases k
    · simp [retriedWrite, retryGo, hs]
    · simp [retriedWrite, retryGo, hlock 0 (by norm_num), hs, List.range_succ]
    · simp [retriedWrite, retryGo, hlock 0 (by norm_num), hlock 1 (by norm_num), hs,
        List.range_succ]
    · simp [retriedWrite, retryGo, hlock 0 (by norm_num), hlock 1 (by norm_num),
        hlock 2 (by norm_num), hs, List.range_succ]
    · simp [retriedWrite, retryGo, hlock 0 (by norm_num), hlock 1 (by norm_num),
        hlock 2 (by norm_num), hlock 3 (by norm_num), hs, List.range_succ]
  · intro hall
    simp [retriedWrite, retryGo, hall 0 (by norm_num), hall 1 (by norm_num),
      hall 2 (by norm_num), hall 3 (by norm_num), hall 4 (by norm_num)]

/-- Witness for C2: the database reports "locked" on the first two attempts
and then succeeds; the metadata loop then starts with delay 4. -/
theorem C2_retry_behaviour_witness :
    ((tileInsertRun fun n => if n < 2 then .locked else .success).attempts = 1
        ∧ (tileInsertRun fun n => if n < 2 then .locked else .success).sleeps = []
        ∧ ((tileInsertRun fun n => if n < 2 then .locked else .success).raised = none
            ↔ (fun n => if n < 2 then SqlOutcome.locked else .success) 0 = .success))
      ∧ retriedWrite (fun n => if n < 2 then .locked else .success) 1
          = ⟨none, 2 + 1, (List.range 2).map (2 ^ ·), 2 ^ 2⟩
      ∧ stampSequence (fun n => if n < 2 then .locked else .success)
          (fun _ => .success)
        = (⟨none, 2 + 1, (List.range 2).map (2 ^ ·), 2 ^ 2⟩,
           some (retriedWrite (fun _ => .success) (2 ^ 2))) := by
  have h := C2_retry_behaviour (fun n => if n < 2 then .locked else .success)
    (fun _ => .success) 2 (by norm_num) (fun j hj => by interval_cases j <;> decide)
  have h2 := h.2.1 (by decide)
  exact ⟨h.1, h2.1, h2.2⟩

/-- C2 counterexample: with outcomes "locked then success", the per-tile
insert raises instead of retrying (so not every write is retry-wrapped), and
after the application-id write slept once, the metadata write's first
back-off sleep is 2 time units, not 1. -/
theorem C2_counterexample :
    (tileInsertRun fun n => if n = 0 then .locked else .success).raised
        = some .locked
      ∧ (stampSequence (fun n => if n = 0 then .locked else .success)
          (fun n => if n = 0 then .locked else .success)).2
        = some ⟨none, 2, [2], 4⟩ := by
  constructor
  · decide
  · decide

/-! ## Claim C3 -/

/-- A run whose workers all finish without raising returns every result. -/
theorem runJobs_ok_of_no_raise (envs : List TileEnv)
    (h : ∀ e ∈ envs, (download_tile e).raised = none) :
    runJobs envs = .ok (envs.map download_tile) := by
  have hnone : (envs.map download_tile).findSome? (fun r => r.raised) = none := by
    apply List.findSome?_eq_none_iff.mpr
    intro r hr
    obtain ⟨e, he, rfl⟩ := List.mem_map.mp hr
    exact h e he
  unfold runJobs
  rw [hnone]

/-- C3 (amended): for every tile job that reaches the network and whose
fetch fails — a transport error, or an HTTP status `>= 400` (the statuses
`raise_for_status` raises for; a non-2xx status below 400, e.g. 304, raises
nothing and is handled as success, see `C3_counterexample`) — strict mode
(the default) lets the error escape the worker and abort the run, while
tolerant mode (`--skip-on-failure`) records the failure in the handler, lets
no exception escape the worker, and still processes the remaining jobs. -/
theorem C3_failure_policy (env : TileEnv) (rest : List TileEnv) (e : WorkerError)
    (hnc : (env.cacheDir && env.cacheExists) = false)
    (hf : fetchError env.fetch = some e) :
    (env.skipOnFailure = false →
        (download_tile env).raised = some e
          ∧ runJobs (env :: rest) = .error e)
      ∧ (env.skipOnFailure = true →
        (download_tile env).raised = none
          ∧ (download_tile env).failureRecord = some e
          ∧ ((∀ e' ∈ rest, (download_tile e').raised = none) →
              runJobs (env :: rest) = .ok ((env :: rest).map download_tile))) := by
  have hdt : download_tile env = handleFetchFailure env e := by
    cases hfo : env.fetch with
    | transportFailure =>
      rw [hfo] at hf
      simp only [fetchError, Option.some_inj] at hf
      subst hf
      simp [download_tile, hnc, hfo]
    | response s body =>
      rw [hfo] at hf
      simp only [fetchError] at hf
      by_cases hs : 400 ≤ s
      · rw [if_pos hs, Option.some_inj] at hf
        subst hf
        simp [download_tile, hnc, hfo, hs]
      · rw [if_neg hs] at hf
        exact absurd hf (by simp)
  constructor
  · intro hskip
    have hraised : (download_tile env).raised = some e := by
      rw [hdt]
      unfold handleFetchFailure
      rw [hskip]
      simp
    refine ⟨hraised, ?_⟩
    simp [runJobs, hraised]
  · intro hskip
    have h1 : (download_tile env).raised = none := by
      rw [hdt]; unfold handleFetchFailure; rw [hskip]; simp
    have h2 : (download_tile env).failureRecord = some e := by
      rw [hdt]; unfold handleFetchFailure; rw [hskip]; simp
    refine ⟨h1, h2, fun hrest => ?_⟩
    apply runJobs_ok_of_no_raise
    intro e' he'
    rcases List.mem_cons.mp he' with rfl | hmem
    · exact h1
    · exact hrest e' hmem

/-- Witness for C3: a strict-mode job failing with an HTTP 404 raises the
error out of the worker and aborts the run. -/
theorem C3_failure_policy_witness :
    (download_tile
        (TileEnv.mk false false (.ok []) (.response 404 []) .ok false false)).raised
        = some (.httpError 404)
      ∧ runJobs [TileEnv.mk false false (.ok []) (.response 404 []) .ok false false]
        = .error (.httpError 404) := by
  have h := C3_failure_policy
    (TileEnv.mk false false (.ok []) (.response 404 []) .ok false false) []
    (.httpError 404) (by decide) (by decide)
  exact h.1 rfl

/-- C3 counterexample: a returned HTTP 304 — a non-2xx status — is not a
fetch failure for the code: `raise_for_status` does not raise below 400, so
even in strict mode nothing propagates, the run is not aborted, and the
response body is inserted into the tiles table. -/
theorem C3_counterexample :
    (download_tile (TileEnv.mk false false (.ok []) (.response 304 [7]) .ok false
        false)).raised = none
      ∧ (download_tile (TileEnv.mk false false (.ok []) (.response 304 [7]) .ok false
        false)).inserted = some [7]
      ∧ runJobs [TileEnv.mk false false (.ok []) (.response 304 [7]) .ok false false]
        = .ok [download_tile
            (TileEnv.mk false false (.ok []) (.response 304 [7]) .ok false false)] := by
  refine ⟨by decide, by decide, ?_⟩
  rfl

/-! ## Claim C6 -/

/-- C6: when a cache directory is configured, the cache entry for the
coordinate exists and its bytes can be read, `download_tile` inserts exactly
the cached bytes into the tiles table and performs no network request at
all (and nothing is raised, logged or written back to the cache). -/
theorem C6_cache_hit (env : TileEnv) (b : TileBytes)
    (h1 : env.cacheDir = true) (h2 : env.cacheExists = true)
    (h3 : env.cacheRead = .ok b) :
    download_tile env
      = { raised := none, inserted := some b, fetched := false,
          wroteCache := false, loggedUrl := false, failureRecord := none } := by
  simp [download_tile, h1, h2, h3]

/-- Witness for C6 at a concrete cache-hit environment. -/
theorem C6_cache_hit_witness :
    download_tile (TileEnv.mk true true (.ok [9, 9]) (.response 200 [1]) .ok false false)
      = { raised := none, inserted := some [9, 9], fetched := false,
          wroteCache := false, loggedUrl := false, failureRecord := none } :=
  C6_cache_hit (TileEnv.mk true true (.ok [9, 9]) (.response 200 [1]) .ok false false)
    [9, 9] rfl rfl rfl

/-! ## Claim C8 -/

/-- C8 (amended): cache I/O failures are not caught anywhere in
`download_tile` — the `try` block only catches `RequestException`.  An
`OSError` while reading an existing cache entry propagates out of the worker
before any network request is made (it is not treated as a cache miss), and
an `OSError` while writing the cache entry after a successful fetch also
propagates, skipping the tiles-table insert.  In both cases the worker
raises even in tolerant mode. -/
theorem C8_cache_io_failure (env : TileEnv) :
    (env.cacheDir = true → env.cacheExists = true → env.cacheRead = .ioFailure →
        download_tile env
          = { raised := some .cacheReadFailure, inserted := none, fetched := false,
              wroteCache := false, loggedUrl := false, failureRecord := none })
      ∧ (∀ s body, env.cacheDir = true → env.cacheExists = false →
          env.fetch = .response s body → s < 400 → env.cacheWrite = .ioFailure →
          download_tile env
            = { raised := some .cacheWriteFailure, inserted := none, fetched := true,
                wroteCache := false, loggedUrl := false, failureRecord := none }) := by
  constructor
  · intro h1 h2 h3
    simp [download_tile, h1, h2, h3]
  · intro s body h1 h2 h3 h4 h5
    simp [download_tile, h1, h2, h3, h5, Nat.not_le.mpr h4]

/-- Witness for C8: a failing cache read, and a failing cache write after a
successful 200 fetch. -/
theorem C8_cache_io_failure_witness :
    download_tile (TileEnv.mk true true .ioFailure (.response 200 [1]) .ok true false)
        = { raised := some .cacheReadFailure, inserted := none, fetched := false,
            wroteCache := false, loggedUrl := false, failureRecord := none }
      ∧ download_tile
          (TileEnv.mk true false (.ok []) (.response 200 [1]) .ioFailure true false)
        = { raised := some .cacheWriteFailure, inserted := none, fetched := true,
            wroteCache := false, loggedUrl := false, failureRecord := none } :=
  ⟨(C8_cache_io_failure
      (TileEnv.mk true true .ioFailure (.response 200 [1]) .ok true false)).1
        rfl rfl rfl,
   (C8_cache_io_failure
      (TileEnv.mk true false (.ok []) (.response 200 [1]) .ioFailure true false)).2
        200 [1] rfl rfl rfl (by norm_num) rfl⟩

/-- C8 counterexample: a cache read failure on an existing entry in tolerant
mode (`skip_on_failure` set), where the network fetch would succeed.  The
claim says the failure is treated as a cache miss (the job falls through to
the network) and is never fatal; the code performs no fetch and raises the
`OSError` out of the worker. -/
theorem C8_counterexample :
    (download_tile
        (TileEnv.mk true true .ioFailure (.response 200 [1]) .ok true false)).fetched
        = false
      ∧ (download_tile
          (TileEnv.mk true true .ioFailure (.response 200 [1]) .ok true
            false)).raised = some .cacheReadFailure := by
  constructor
  · decide
  · decide

/-! ## Claim C10 -/

/-- C10: the failure-log guard
`log_failed_urls_to and e.response and e.response.status_code == 404` can
never pass: `e.response` is either `None` (transport error) or a `Response`
whose truthiness is `status_code < 400`, while the handler only ever sees
statuses `>= 400` — so for a 404 the middle conjunct is already falsy, and
`download_tile` never appends any URL to the failure log.  In particular at
the claimed trigger (tolerant mode, log path configured, HTTP 404) nothing
is logged even though the failure is handled. -/
theorem C10_failure_log_dead (env : TileEnv) :
    (download_tile env).loggedUrl = false
      ∧ (download_tile
          (TileEnv.mk false false (.ok []) (.response 404 []) .ok true true)).loggedUrl
          = false
      ∧ (download_tile
          (TileEnv.mk false false (.ok []) (.response 404 []) .ok true
            true)).failureRecord = some (.httpError 404) := by
  refine ⟨?_, by decide, by decide⟩
  unfold download_tile
  by_cases h1 : (env.cacheDir && env.cacheExists) = true
  · rw [if_pos h1]
    cases env.cacheRead <;> simp
  · rw [if_neg h1]
    cases hfo : env.fetch with
    | transportFailure =>
      dsimp only
      unfold handleFetchFailure
      by_cases hs : env.skipOnFailure = true
      · rw [if_pos hs]
        simp [responseTruthy]
      · rw [if_neg hs]
    | response s body =>
      dsimp only
      by_cases hge : 400 ≤ s
      · rw [if_pos hge]
        unfold handleFetchFailure
        by_cases hs : env.skipOnFailure = true
        · rw [if_pos hs]
          simp only [responseTruthy]
          have : decide (s < 400) = false := by
            simp [Nat.not_lt.mpr hge]
          simp [this]
        · rw [if_neg hs]
      · rw [if_neg hge]
        by_cases hc : env.cacheDir = true
        · rw [if_pos hc]
          cases env.cacheWrite <;> simp
        · rw [if_neg hc]

/-! ## Claim C4 -/

/-- C4: starting from a table with no row for coordinate `k`, writing
`(k, b1)` and then `(k, b2)` through the `INSERT OR IGNORE` path leaves
exactly one row for `k`, and that row still holds `b1` — the second write is
a no-op. -/
theorem C4_insertOrIgnore_idempotent (t : TilesTable) (k : TileKey)
    (b1 b2 : TileBytes) (h : hasKey t k = false) :
    rowsFor (insertOrIgnore (insertOrIgnore t k b1) k b2) k = [(k, b1)] := by
  have h1 : insertOrIgnore t k b1 = t ++ [(k, b1)] := by
    simp [insertOrIgnore, h]
  have h2 : hasKey (t ++ [(k, b1)]) k = true := by
    unfold hasKey
    rw [List.any_append]
    simp
  have h3 : insertOrIgnore (t ++ [(k, b1)]) k b2 = t ++ [(k, b1)] := by
    simp [insertOrIgnore, h2]
  rw [h1, h3]
  unfold rowsFor
  rw [List.filter_append]
  have h4 : t.filter (fun r => decide (r.1 = k)) = [] := by
    rw [List.filter_eq_nil_iff]
    intro r hr
    unfold hasKey at h
    rw [List.any_eq_false] at h
    simpa using h r hr
  rw [h4]
  simp

/-- Witness for C4 on the empty table. -/
theorem C4_insertOrIgnore_idempotent_witness :
    rowsFor (insertOrIgnore (insertOrIgnore [] (0, 0, 0) [1]) (0, 0, 0) [2]) (0, 0, 0)
      = [((0, 0, 0), [1])] :=
  C4_insertOrIgnore_idempotent [] (0, 0, 0) [1] [2] (by decide)

/-! ## Claim C5 -/

/-- Inserting never removes a key. -/
theorem hasKey_insertOrIgnore_mono (t : TilesTable) (k k' : TileKey) (b : TileBytes)
    (h : hasKey t k' = true) : hasKey (insertOrIgnore t k b) k' = true := by
  unfold insertOrIgnore
  by_cases hk : hasKey t k = true
  · rw [if_pos hk]; exact h
  · rw [if_neg hk]
    unfold hasKey at h ⊢
    rw [List.any_append, h]
    rfl

/-- After an insert, the inserted key is present. -/
theorem hasKey_insertOrIgnore_self (t : TilesTable) (k : TileKey) (b : TileBytes) :
    hasKey (insertOrIgnore t k b) k = true := by
  unfold insertOrIgnore
  by_cases hk : hasKey t k = true
  · rw [if_pos hk]; exact hk
  · rw [if_neg hk]
    unfold hasKey
    rw [List.any_append]
    simp

/-- Keys survive a whole run of inserts. -/
theorem hasKey_insertAll_mono (jobs : List TileKey) (t : TilesTable) (k : TileKey)
    (bytesOf : TileKey → TileBytes) (h : hasKey t k = true) :
    hasKey (insertAll t jobs bytesOf) k = true := by
  induction jobs generalizing t with
  | nil => exact h
  | cons j rest ih => exact ih _ (hasKey_insertOrIgnore_mono t j k (bytesOf j) h)

/-- Every job inserted during a fully successful run is afterwards present
in the table. -/
theorem hasKey_insertAll_of_mem (jobs : List TileKey) (t : TilesTable) (k : TileKey)
    (bytesOf : TileKey → TileBytes) : k ∈ jobs → hasKey (insertAll t jobs bytesOf) k = true := by
  induction jobs generalizing t with
  | nil => intro h; cases h
  | cons j rest ih =>
    intro h
    rcases List.mem_cons.mp h with rfl | hm
    · exact hasKey_insertAll_mono rest _ k bytesOf (hasKey_insertOrIgnore_self t k _)
    · exact ih _ hm

/-- Membership in `intRange`. -/
theorem mem_intRange {a b x : ℤ} : x ∈ intRange a b ↔ a ≤ x ∧ x < b := by
  unfold intRange
  rw [List.mem_map]
  constructor
  · rintro ⟨i, hi, rfl⟩
    rw [List.mem_range] at hi
    omega
  · rintro ⟨h1, h2⟩
    refine ⟨(x - a).toNat, ?_, by omega⟩
    rw [List.mem_range]
    omega

/-- Without `--continue`, the enumeration produces every coordinate of the
rectangle. -/
theorem mem_tilesForZoom_of_not_continue (zoom : ℕ) (xmin xmax ymin ymax : ℤ)
    (ex : ℕ → ℤ → ℤ → Bool) {x y : ℤ}
    (hx : x ∈ intRange xmin (xmax + 1)) (hy : y ∈ intRange ymin (ymax + 1)) :
    (zoom, x, y) ∈ tilesForZoom zoom xmin xmax ymin ymax false ex := by
  unfold tilesForZoom
  rw [List.mem_flatten]
  refine ⟨(intRange ymin (ymax + 1)).filterMap fun y =>
    if false && ex zoom x y then none else some (zoom, x, y), ?_, ?_⟩
  · rw [List.mem_map]
    exact ⟨x, hx, rfl⟩
  · rw [List.mem_filterMap]
    exact ⟨y, hy, by simp⟩

/-- With `--continue` and every rectangle coordinate already present, the
enumeration produces no job at all. -/
theorem tilesForZoom_continue_all_present (zoom : ℕ) (xmin xmax ymin ymax : ℤ)
    (ex : ℕ → ℤ → ℤ → Bool)
    (h : ∀ x y, x ∈ intRange xmin (xmax + 1) → y ∈ intRange ymin (ymax + 1) →
      ex zoom x y = true) :
    tilesForZoom zoom xmin xmax ymin ymax true ex = [] := by
  unfold tilesForZoom
  rw [List.flatten_eq_nil_iff]
  intro l hl
  rw [List.mem_map] at hl
  obtain ⟨x, hx, rfl⟩ := hl
  rw [List.filterMap_eq_nil_iff]
  intro y hy
  rw [if_pos]
  rw [h x y hx hy]
  rfl

/-- C5: with `--continue`, a coordinate whose row already exists in the
tiles table is never turned into a job; and a second run over the same
rectangle, against the table produced by a fully successful first run over
that rectangle, creates no job at all and performs zero network fetches. -/
theorem C5_resume_skip (zoom : ℕ) (xmin xmax ymin ymax : ℤ)
    (existing ex0 : ℕ → ℤ → ℤ → Bool) (bytesOf : TileKey → TileBytes)
    (envOf : TileKey → TileEnv) :
    (∀ x y, existing zoom x y = true →
        (zoom, x, y) ∉ tilesForZoom zoom xmin xmax ymin ymax true existing)
      ∧ tilesForZoom zoom xmin xmax ymin ymax true
          (fun z x y =>
            hasKey (insertAll []
              (tilesForZoom zoom xmin xmax ymin ymax false ex0) bytesOf) (z, x, y))
          = []
      ∧ networkFetches
          (tilesForZoom zoom xmin xmax ymin ymax true
            (fun z x y =>
              hasKey (insertAll []
                (tilesForZoom zoom xmin xmax ymin ymax false ex0) bytesOf) (z, x, y)))
          envOf = 0 := by
  have hnil : tilesForZoom zoom xmin xmax ymin ymax true
      (fun z x y =>
        hasKey (insertAll []
          (tilesForZoom zoom xmin xmax ymin ymax false ex0) bytesOf) (z, x, y))
      = [] := by
    apply tilesForZoom_continue_all_present
    intro x y hx hy
    exact hasKey_insertAll_of_mem _ _ _ _
      (mem_tilesForZoom_of_not_continue zoom xmin xmax ymin ymax ex0 hx hy)
  refine ⟨?_, hnil, ?_⟩
  · intro x y hex hmem
    unfold tilesForZoom at hmem
    rw [List.mem_flatten] at hmem
    obtain ⟨l, hl, hml⟩ := hmem
    rw [List.mem_map] at hl
    obtain ⟨x', hx', rfl⟩ := hl
    rw [List.mem_filterMap] at hml
    obtain ⟨y', hy', heq⟩ := hml
    by_cases hb : existing zoom x' y' = true
    · rw [if_pos (by rw [hb]; rfl)] at heq
      exact Option.noConfusion heq
    · rw [if_neg (by simpa using hb)] at heq
      rw [Option.some_inj, Prod.mk.injEq, Prod.mk.injEq] at heq
      obtain ⟨-, rfl, rfl⟩ := heq
      exact hb hex
  · rw [hnil]
    rfl

/-- Witness for C5 on the one-tile rectangle at zoom 0. -/
theorem C5_resume_skip_witness :
    (0, 0, 0) ∉ tilesForZoom 0 0 0 0 0 true (fun _ _ _ => true)
      ∧ tilesForZoom 0 0 0 0 0 true
          (fun z x y => hasKey (insertAll []
            (tilesForZoom 0 0 0 0 0 false fun _ _ _ => false) fun _ => [1]) (z, x, y))
          = [] := by
  have h := C5_resume_skip 0 0 0 0 0 (fun _ _ _ => true) (fun _ _ _ => false)
    (fun _ => [1])
    (fun _ => TileEnv.mk false false (.ok []) (.response 200 []) .ok false false)
  exact ⟨h.1 0 0 rfl, h.2.1⟩

/-! ## Claim C7 -/

/-- C7: the headers sent with tile requests contain exactly one of `Referer`
or `User-Agent`, never both — a non-empty `--referer` yields the single
header `Referer` (taking precedence over the always-defaulted
`--user-agent`), an empty one yields the single header `User-Agent`. -/
theorem C7_headers_exclusive (referer userAgent : String) :
    (referer ≠ "" → buildHeaders referer userAgent = [("Referer", referer)])
      ∧ (referer = "" → buildHeaders referer userAgent = [("User-Agent", userAgent)])
      ∧ ((buildHeaders referer userAgent).map Prod.fst = ["Referer"]
          ∨ (buildHeaders referer userAgent).map Prod.fst = ["User-Agent"]) := by
  unfold buildHeaders
  by_cases h : referer = ""
  · rw [if_neg (not_not_intro h)]
    exact ⟨fun hc => absurd h hc, fun _ => rfl, Or.inr rfl⟩
  · rw [if_pos h]
    exact ⟨fun _ => rfl, fun hc => absurd hc h, Or.inl rfl⟩

/-- Witness for C7 with a non-empty and an empty referer. -/
theorem C7_headers_exclusive_witness :
    buildHeaders "r" "u" = [("Referer", "r")]
      ∧ buildHeaders "" "u" = [("User-Agent", "u")] :=
  ⟨(C7_headers_exclusive "r" "u").1 (by decide),
   (C7_headers_exclusive "" "u").2.1 rfl⟩
